import Mathlib

/-!
Shallow embedding of `multicall/utils.py` (wakamex/multicall.py).

Python objects are modelled as follows: a `Web3` connection handle is a
structure whose `id` field stands for the object's identity (the key of the
module-level `dict` caches, which hash by identity); the external call
`w3.eth.chain_id` is an oracle function passed as a parameter; a coroutine is
modelled by its eventual outcome, `Except ε α`; `asyncio.gather` with
`return_exceptions=True` maps each coroutine to its collected result (value
or exception object), in input order; mutable module state (`chainids`,
`async_w3s`, the `lru_cache` of `__get_semaphore`) is threaded explicitly.
Values imported from `multicall.constants` (`AIOHTTP_TIMEOUT`,
`NUM_PROCESSES`, `NO_STATE_OVERRIDE`, `ASYNC_SEMAPHORE`) are parameters of
the definitions, so every theorem quantifies over them.
-/

namespace Multicall

/-- Collected outcome of one awaited coroutine: either its value or the
exception object it raised (as `asyncio.gather(..., return_exceptions=True)`
collects them). -/
inductive Res (ε : Type) (α : Type) where
  | ok (a : α)
  | exn (e : ε)
deriving DecidableEq

/-- Model of `asyncio.gather(*coroutines, return_exceptions=True)`: every
coroutine runs to completion and its value or raised exception is collected,
in the order of the input coroutines. A coroutine is modelled by its eventual
outcome `Except ε α`. -/
def asyncio_gather_re {ε α : Type} (coroutines : List (Except ε α)) : List (Res ε α) :=
  coroutines.map fun c =>
    match c with
    | .ok a => Res.ok a
    | .error e => Res.exn e

/-- `raise_if_exception(obj)`: raises `obj` if it is an `Exception`, else
returns `None`. -/
def raise_if_exception {ε α : Type} : Res ε α → Except ε Unit
  | .exn e => .error e
  | .ok _ => .ok ()

/-- `raise_if_exception_in(iterable)`: calls `raise_if_exception` on each
element in order, so the first exception encountered is raised. -/
def raise_if_exception_in {ε α : Type} : List (Res ε α) → Except ε Unit
  | [] => .ok ()
  | r :: rs =>
    match raise_if_exception r with
    | .error e => .error e
    | .ok _ => raise_if_exception_in rs

/-- `gather(coroutines)`: awaits `asyncio.gather(*coroutines,
return_exceptions=True)`, then `raise_if_exception_in(results)`, then returns
`results`. -/
def gather {ε α : Type} (coroutines : List (Except ε α)) : Except ε (List (Res ε α)) :=
  let results := asyncio_gather_re coroutines
  match raise_if_exception_in results with
  | .error e => .error e
  | .ok _ => .ok results

/-- Boolean test for a collected exception. -/
def Res.isExn {ε α : Type} : Res ε α → Bool
  | .exn _ => true
  | .ok _ => false

/-- Boolean success test for the modelled `Except`-valued functions. -/
def exceptIsOk {ε β : Type} : Except ε β → Bool
  | .ok _ => true
  | .error _ => false

/-- The first exception in a list of collected results, in result order. -/
def firstExn {ε α : Type} : List (Res ε α) → Option ε
  | [] => none
  | .ok _ :: rs => firstExn rs
  | .exn e :: _ => some e

/-- Model of `chain_id(w3)`: the module-level cache `chainids` is an
association list keyed by handle identity (`w3 : Nat`); `eth_chain_id` is
the oracle for the external call `w3.eth.chain_id`. On a cache miss the
result of the external call is stored and the stored value returned.
Returns the chain id, the cache after the call, and whether the node was
queried. -/
def chain_id (eth_chain_id : Nat → Nat) (chainids : List (Nat × Nat)) (w3 : Nat) :
    Nat × List (Nat × Nat) × Bool :=
  match List.lookup w3 chainids with
  | some v => (v, chainids, false)
  | none => (eth_chain_id w3, (w3, eth_chain_id w3) :: chainids, true)

/-- A sequence of `chain_id` calls on the handles `ws`, threading the cache;
each output records the handle, the returned chain id, and whether that call
queried the node. -/
def chain_id_run (eth_chain_id : Nat → Nat) :
    List (Nat × Nat) → List Nat → List (Nat × Nat × Bool)
  | _, [] => []
  | chainids, w :: ws =>
    let r := chain_id eth_chain_id chainids w
    (w, r.1, r.2.2) :: chain_id_run eth_chain_id r.2.1 ws

/-- Model of `state_override_supported(w3)`: `False` when `chain_id(w3)` is
in `NO_STATE_OVERRIDE`, else `True`; the `chainids` cache is threaded
through the inner `chain_id` call. -/
def state_override_supported (NO_STATE_OVERRIDE : List Nat) (eth_chain_id : Nat → Nat)
    (chainids : List (Nat × Nat)) (w3 : Nat) : Bool × List (Nat × Nat) :=
  let r := chain_id eth_chain_id chainids w3
  if r.1 ∈ NO_STATE_OVERRIDE then (false, r.2.1)
  else (true, r.2.1)

/-- `aiohttp.ClientTimeout`, reduced to its `total` field, which is all the
code reads. -/
structure ClientTimeout where
  total : Nat
deriving DecidableEq

/-- The value at `provider._request_kwargs["timeout"]`: either a
`ClientTimeout` object or a bare number. -/
inductive TimeoutVal where
  | client (t : ClientTimeout)
  | num (n : Nat)
deriving DecidableEq

/-- `timeout.total if isinstance(timeout, ClientTimeout) else timeout`. -/
def timeoutTotal : TimeoutVal → Nat
  | .client t => t.total
  | .num n => n

/-- The provider attached to a handle: synchronous, an `AsyncBaseProvider`
instance, or one of the two constructors `get_async_w3` uses. -/
inductive ProviderKind where
  | sync
  | asyncBase
  | websocketV2
  | asyncHTTP
deriving DecidableEq

/-- `isinstance(provider, AsyncBaseProvider)`: both constructors used by
`get_async_w3` build async providers. -/
def providerIsAsyncBase : ProviderKind → Bool
  | .sync => false
  | _ => true

/-- A `Web3` connection handle. `id` stands for Python object identity, the
key of the `async_w3s` cache; the other fields are what `get_async_w3`
reads: `eth.is_async`, the provider's class, its
`_request_kwargs["timeout"]`, and its endpoint URI. -/
structure W3 where
  id : Nat
  eth_is_async : Bool
  providerKind : ProviderKind
  timeout : TimeoutVal
  endpoint : String
deriving DecidableEq

/-- `endpoint.startswith(("wss:", "ws:"))`. -/
def endpointIsWs (e : String) : Bool :=
  e.startsWith "wss:" || e.startsWith "ws:"

/-- The provider class `get_async_w3` constructs for a new adapter:
`WebsocketProviderV2` when it imported and the endpoint is a websocket URI,
else `AsyncHTTPProvider`. -/
def mkAsyncProvider (hasWsV2 : Bool) (endpoint : String) : ProviderKind :=
  if hasWsV2 && endpointIsWs endpoint then .websocketV2 else .asyncHTTP

/-- Model of `get_async_w3(w3)`. `floor` is `AIOHTTP_TIMEOUT.total` and
`.client ⟨floor⟩` is `AIOHTTP_TIMEOUT` itself; `async_w3s` is an association
list keyed by handle identity; `fresh` is an identity never held by a live
object, used for a newly constructed adapter. Returns the resolved handle,
the cache after the call, and whether a new adapter object was constructed. -/
def get_async_w3 (hasWsV2 : Bool) (floor : Nat) (fresh : Nat)
    (async_w3s : List (Nat × W3)) (w3 : W3) : W3 × List (Nat × W3) × Bool :=
  match List.lookup w3.id async_w3s with
  | some a => (a, async_w3s, false)
  | none =>
    if w3.eth_is_async && providerIsAsyncBase w3.providerKind then
      let t := timeoutTotal w3.timeout
      let w3a := if t < floor then { w3 with timeout := .client ⟨floor⟩ } else w3
      (w3a, (w3.id, w3a) :: async_w3s, false)
    else
      let adapter : W3 :=
        { id := fresh, eth_is_async := true,
          providerKind := mkAsyncProvider hasWsV2 w3.endpoint,
          timeout := .client ⟨floor⟩, endpoint := w3.endpoint }
      (adapter, (w3.id, adapter) :: async_w3s, true)

/-- The message head `get_event_loop` tests the `RuntimeError` for. -/
def noLoopMsg : String := "There is no current event loop in thread"

/-- Model of `get_event_loop()`. The environment's `asyncio.get_event_loop()`
outcome is the input `fetched` (a loop, or a `RuntimeError` with its
message); `newLoop` is the loop `asyncio.new_event_loop()` would create.
Returns the loop together with `true` when a new loop was created and
installed as current via `asyncio.set_event_loop`, or re-raises the fetched
error unchanged. -/
def get_event_loop (fetched : Except String Nat) (newLoop : Nat) :
    Except String (Nat × Bool) :=
  match fetched with
  | .ok l => .ok (l, false)
  | .error e =>
    if e.startsWith noLoopMsg then .ok (newLoop, true)
    else .error e

/-- Where `run_in_subprocess` executed the callable. -/
inductive ExecVenue where
  | current
  | pool
deriving DecidableEq

/-- An exception raised by the Python runtime in the modelled code. -/
inductive PyError where
  | typeError
deriving DecidableEq

/-- Model of `run_in_subprocess(callable, *args, **kwargs)`. The callable
takes its positional arguments `args` and keyword arguments `kwargs` (an
association list of keyword name to value). When `NUM_PROCESSES == 1` the
callable is applied directly in the current process. Otherwise the code
calls `loop.run_in_executor(process_pool_executor, callable, *args,
**kwargs)`; `run_in_executor(self, executor, func, *args)` accepts no
keyword arguments, so that call raises `TypeError` whenever `kwargs` is
non-empty, and with no keyword arguments the pool (modelled as faithfully
applying the callable) returns the awaited result. The venue is recorded. -/
def run_in_subprocess {α γ β : Type} (NUM_PROCESSES : Nat)
    (f : α → List (String × γ) → β) (args : α) (kwargs : List (String × γ)) :
    Except PyError (β × ExecVenue) :=
  if NUM_PROCESSES = 1 then .ok (f args kwargs, .current)
  else if kwargs.isEmpty then .ok (f args kwargs, .pool)
  else .error .typeError

/-- An `asyncio.Semaphore` instance: `sloop` is the loop that was current
when it was created, `serial` distinguishes distinct instances. -/
structure Sem where
  sloop : Nat
  serial : Nat
deriving DecidableEq

/-- Model of `__get_semaphore(loop)` under its `@lru_cache(maxsize=1)`: the
cache holds at most the one most-recent `(loop, semaphore)` pair. A call
with the cached loop returns the cached instance; any other call constructs
`Semaphore(ASYNC_SEMAPHORE)` (a fresh instance, tagged with the current
loop) and replaces the cache entry. `fresh` is the next unused serial. -/
def get_semaphore_lru1 (cache : Option (Nat × Sem)) (fresh : Nat) (loop : Nat) :
    Sem × Option (Nat × Sem) × Nat :=
  match cache with
  | some (l, s) =>
    if l = loop then (s, some (l, s), fresh)
    else ((⟨loop, fresh⟩ : Sem), some (loop, ⟨loop, fresh⟩), fresh + 1)
  | none => ((⟨loop, fresh⟩ : Sem), some (loop, ⟨loop, fresh⟩), fresh + 1)

/-- A sequence of `_get_semaphore()` acquisitions; the list `loops` gives the
loop current at each acquisition (the argument `_get_semaphore` passes down).
Each output pairs that loop with the semaphore returned. -/
def semaphore_run : Option (Nat × Sem) → Nat → List Nat → List (Nat × Sem)
  | _, _, [] => []
  | cache, fresh, l :: ls =>
    let r := get_semaphore_lru1 cache fresh l
    (l, r.1) :: semaphore_run r.2.1 r.2.2 ls

lemma raise_if_exception_in_ok_iff {ε α : Type} (rs : List (Res ε α)) :
    exceptIsOk (raise_if_exception_in rs) = !rs.any Res.isExn := by
  induction rs with
  | nil => rfl
  | cons r rs ih =>
    cases r with
    | ok a => simpa [raise_if_exception_in, raise_if_exception, Res.isExn] using ih
    | exn e => simp [raise_if_exception_in, raise_if_exception, Res.isExn, exceptIsOk]

lemma gather_eq {ε α : Type} (coroutines : List (Except ε α)) :
    gather coroutines =
      match raise_if_exception_in (asyncio_gather_re coroutines) with
      | .error e => .error e
      | .ok _ => .ok (asyncio_gather_re coroutines) := rfl

lemma raise_if_exception_in_map_ok {ε α : Type} (vs : List α) :
    raise_if_exception_in (ε := ε) (vs.map Res.ok) = .ok () := by
  induction vs with
  | nil => rfl
  | cons v vs ih => simpa [raise_if_exception_in, raise_if_exception] using ih

lemma raise_if_exception_in_firstExn {ε α : Type} (rs : List (Res ε α)) (e : ε)
    (h : firstExn rs = some e) : raise_if_exception_in rs = .error e := by
  induction rs with
  | nil => simp [firstExn] at h
  | cons r rs ih =>
    cases r with
    | ok a =>
      simp only [firstExn] at h
      simpa [raise_if_exception_in, raise_if_exception] using ih h
    | exn e2 =>
      simp only [firstExn, Option.some.injEq] at h
      simp [raise_if_exception_in, raise_if_exception, h]

lemma chain_id_run_values (f : Nat → Nat) (w : Nat) (ws : List Nat) :
    ∀ st : List (Nat × Nat),
      (List.lookup w st = none ∨ List.lookup w st = some (f w)) →
      ∀ e ∈ chain_id_run f st ws, e.1 = w → e.2.1 = f w := by
  induction ws with
  | nil =>
    intro st _ e he
    simp [chain_id_run] at he
  | cons w2 ws ih =>
    intro st hinv e he hew
    cases hl : List.lookup w2 st with
    | some v =>
      rw [show chain_id_run f st (w2 :: ws) = (w2, v, false) :: chain_id_run f st ws by
        simp [chain_id_run, chain_id, hl]] at he
      rcases List.mem_cons.mp he with he | he
      · subst he
        simp only at hew
        subst hew
        rcases hinv with hnone | hsome
        · rw [hl] at hnone; cases hnone
        · rw [hl] at hsome
          simpa using hsome
      · exact ih st hinv e he hew
    | none =>
      rw [show chain_id_run f st (w2 :: ws)
            = (w2, f w2, true) :: chain_id_run f ((w2, f w2) :: st) ws by
        simp [chain_id_run, chain_id, hl]] at he
      rcases List.mem_cons.mp he with he | he
      · subst he
        simp only at hew
        subst hew
        rfl
      · refine ih ((w2, f w2) :: st) ?_ e he hew
        by_cases hww : w2 = w
        · subst hww
          right
          simp [List.lookup]
        · have hbe : (w == w2) = false := by
            simp only [beq_eq_false_iff_ne, ne_eq]
            exact fun h => hww h.symm
          have hsame : List.lookup w ((w2, f w2) :: st) = List.lookup w st := by
            simp only [List.lookup]
            rw [hbe]
          rw [hsame]
          exact hinv

lemma chain_id_run_no_query_when_cached (f : Nat → Nat) (w : Nat) (ws : List Nat) :
    ∀ (st : List (Nat × Nat)) (v : Nat),
      List.lookup w st = some v →
      (chain_id_run f st ws).countP (fun e => e.1 == w && e.2.2) = 0 := by
  induction ws with
  | nil =>
    intro st v _
    simp [chain_id_run]
  | cons w2 ws ih =>
    intro st v hsome
    cases hl : List.lookup w2 st with
    | some v2 =>
      rw [show chain_id_run f st (w2 :: ws) = (w2, v2, false) :: chain_id_run f st ws by
        simp [chain_id_run, chain_id, hl]]
      rw [List.countP_cons]
      simp only [Bool.and_false, if_false]
      simpa using ih st v hsome
    | none =>
      have hww : w2 ≠ w := by
        intro h
        subst h
        rw [hl] at hsome
        cases hsome
      rw [show chain_id_run f st (w2 :: ws)
            = (w2, f w2, true) :: chain_id_run f ((w2, f w2) :: st) ws by
        simp [chain_id_run, chain_id, hl]]
      rw [List.countP_cons]
      have hbe : (w == w2) = false := by
        simp only [beq_eq_false_iff_ne, ne_eq]
        exact fun h => hww h.symm
      have hlook : List.lookup w ((w2, f w2) :: st) = some v := by
        simp only [List.lookup]
        rw [hbe]
        exact hsome
      have hpred : ((w2, f w2, true).1 == w && (w2, f w2, true).2.2) = false := by
        simp [hww]
      rw [hpred]
      simpa using ih ((w2, f w2) :: st) v hlook

lemma chain_id_run_query_count (f : Nat → Nat) (w : Nat) (ws : List Nat) :
    ∀ st : List (Nat × Nat),
      (chain_id_run f st ws).countP (fun e => e.1 == w && e.2.2) ≤ 1 := by
  induction ws with
  | nil =>
    intro st
    simp [chain_id_run]
  | cons w2 ws ih =>
    intro st
    cases hl : List.lookup w2 st with
    | some v2 =>
      rw [show chain_id_run f st (w2 :: ws) = (w2, v2, false) :: chain_id_run f st ws by
        simp [chain_id_run, chain_id, hl]]
      rw [List.countP_cons]
      simp only [Bool.and_false, if_false]
      simpa using ih st
    | none =>
      rw [show chain_id_run f st (w2 :: ws)
            = (w2, f w2, true) :: chain_id_run f ((w2, f w2) :: st) ws by
        simp [chain_id_run, chain_id, hl]]
      rw [List.countP_cons]
      by_cases hww : w2 = w
      · subst hww
        have hz : (chain_id_run f ((w2, f w2) :: st) ws).countP
            (fun e => e.1 == w2 && e.2.2) = 0 := by
          refine chain_id_run_no_query_when_cached f w2 ws ((w2, f w2) :: st) (f w2) ?_
          simp [List.lookup]
        simp [hz]
      · have hpred : ((w2, f w2, true).1 == w && (w2, f w2, true).2.2) = false := by
          simp [hww]
        rw [hpred]
        simpa using ih ((w2, f w2) :: st)

lemma get_async_w3_hit (hasWsV2 : Bool) (floor fresh : Nat)
    (async_w3s : List (Nat × W3)) (w3 : W3) (a : W3)
    (h : List.lookup w3.id async_w3s = some a) :
    get_async_w3 hasWsV2 floor fresh async_w3s w3 = (a, async_w3s, false) := by
  unfold get_async_w3
  rw [h]

lemma get_async_w3_lookup_after (hasWsV2 : Bool) (floor fresh : Nat)
    (async_w3s : List (Nat × W3)) (w3 : W3) :
    List.lookup w3.id (get_async_w3 hasWsV2 floor fresh async_w3s w3).2.1
      = some (get_async_w3 hasWsV2 floor fresh async_w3s w3).1 := by
  cases hl : List.lookup w3.id async_w3s with
  | some a =>
    rw [get_async_w3_hit hasWsV2 floor fresh async_w3s w3 a hl]
    exact hl
  | none =>
    unfold get_async_w3
    simp only [hl]
    split
    · simp [List.lookup]
    · simp [List.lookup]

lemma get_semaphore_lru1_state (cache : Option (Nat × Sem)) (fresh loop : Nat) :
    (get_semaphore_lru1 cache fresh loop).2.1
      = some (loop, (get_semaphore_lru1 cache fresh loop).1) := by
  unfold get_semaphore_lru1
  cases cache with
  | none => simp
  | some p =>
    obtain ⟨l, s⟩ := p
    by_cases h : l = loop
    · subst h
      simp
    · simp [h]

lemma get_semaphore_lru1_hit (l : Nat) (s : Sem) (fresh : Nat) :
    get_semaphore_lru1 (some (l, s)) fresh l = (s, some (l, s), fresh) := by
  simp [get_semaphore_lru1]

lemma semaphore_run_cons (cache : Option (Nat × Sem)) (fresh l : Nat) (ls : List Nat) :
    semaphore_run cache fresh (l :: ls)
      = (l, (get_semaphore_lru1 cache fresh l).1)
          :: semaphore_run (get_semaphore_lru1 cache fresh l).2.1
               (get_semaphore_lru1 cache fresh l).2.2 ls := rfl

lemma semaphore_run_spec (ls : List Nat) :
    ∀ (cache : Option (Nat × Sem)) (fresh : Nat),
      (∀ l s, cache = some (l, s) → s.sloop = l) →
      (∀ p ∈ semaphore_run cache fresh ls, p.2.sloop = p.1) ∧
      List.Chain' (fun a b : Nat × Sem => a.1 = b.1 → a.2 = b.2)
        (semaphore_run cache fresh ls) := by
  induction ls with
  | nil =>
    intro cache fresh _
    simp [semaphore_run]
  | cons l ls ih =>
    intro cache fresh hinv
    have hsl : (get_semaphore_lru1 cache fresh l).1.sloop = l := by
      unfold get_semaphore_lru1
      cases cache with
      | none => simp
      | some p =>
        obtain ⟨l2, s⟩ := p
        by_cases h : l2 = l
        · subst h
          simpa using hinv l2 s rfl
        · simp [h]
    have hstate := get_semaphore_lru1_state cache fresh l
    have hinv2 : ∀ l2 s2,
        (get_semaphore_lru1 cache fresh l).2.1 = some (l2, s2) → s2.sloop = l2 := by
      intro l2 s2 h2
      rw [hstate] at h2
      injection h2 with h3
      injection h3 with h4 h5
      rw [← h5, ← h4]
      exact hsl
    obtain ⟨ihA, ihB⟩ := ih (get_semaphore_lru1 cache fresh l).2.1
      (get_semaphore_lru1 cache fresh l).2.2 hinv2
    constructor
    · rw [semaphore_run_cons]
      intro p hp
      rcases List.mem_cons.mp hp with hp | hp
      · subst hp
        exact hsl
      · exact ihA p hp
    · rw [semaphore_run_cons]
      refine List.chain'_cons'.mpr ⟨?_, ihB⟩
      intro b hb hl2
      cases ls with
      | nil => simp [semaphore_run] at hb
      | cons l2 ls2 =>
        rw [semaphore_run_cons] at hb
        simp only [List.head?_cons, Option.mem_def, Option.some.injEq] at hb
        subst hb
        simp only at hl2
        subst hl2
        simp only
        rw [hstate, get_semaphore_lru1_hit]

end Multicall

namespace Multicall

/-- C1: `gather` re-raises an exception if and only if at least one of the
collected results is an exception; when no coroutine failed it raises
nothing (its outcome is `ok`). -/
theorem gather_raises_iff_some_exn {ε α : Type} (coroutines : List (Except ε α)) :
    exceptIsOk (gather coroutines) = !(asyncio_gather_re coroutines).any Res.isExn := by
  rw [gather_eq]
  have h2 := raise_if_exception_in_ok_iff (asyncio_gather_re coroutines)
  cases hr : raise_if_exception_in (asyncio_gather_re coroutines) with
  | error e =>
    rw [hr] at h2
    exact h2
  | ok u =>
    rw [hr] at h2
    exact h2

/-- C2: when at least one coroutine failed, `gather` collects every result
and re-raises exactly the first exception in result order. -/
theorem gather_reraises_first_exn {ε α : Type} (coroutines : List (Except ε α)) (e : ε)
    (h : firstExn (asyncio_gather_re coroutines) = some e) :
    gather coroutines = .error e := by
  rw [gather_eq, raise_if_exception_in_firstExn _ e h]

/-- Witness for C2 at a concrete input: two coroutines fail and the first
failure in result order (`"boom1"`) is the one re-raised. -/
theorem gather_reraises_first_exn_witness :
    gather [Except.ok 7, Except.error "boom1", Except.error "boom2", Except.ok 5]
      = (Except.error "boom1" : Except String (List (Res String Nat))) :=
  gather_reraises_first_exn [Except.ok 7, Except.error "boom1", Except.error "boom2", Except.ok 5]
    "boom1" rfl

/-- C7: when every coroutine succeeds, `gather` returns all results, one per
coroutine, in the order of the input coroutines. -/
theorem gather_all_ok {ε α : Type} (vs : List α) :
    gather (vs.map Except.ok) = (Except.ok (vs.map Res.ok) : Except ε (List (Res ε α))) := by
  have hres : asyncio_gather_re (ε := ε) (vs.map Except.ok) = vs.map Res.ok := by
    simp [asyncio_gather_re, List.map_map]
  rw [gather_eq, hres, raise_if_exception_in_map_ok]

/-- C3: over any sequence of `chain_id` calls starting from the empty cache,
each handle's chain id is fetched from the node at most once, and every call
on that handle returns the same value, the one the oracle gave (so repeat
calls return the identical cached value without querying again). -/
theorem chain_id_computes_at_most_once (f : Nat → Nat) (ws : List Nat) (w : Nat) :
    (∀ e ∈ chain_id_run f [] ws, e.1 = w → e.2.1 = f w) ∧
    (chain_id_run f [] ws).countP (fun e => e.1 == w && e.2.2) ≤ 1 :=
  ⟨chain_id_run_values f w ws [] (Or.inl rfl), chain_id_run_query_count f w ws []⟩

/-- C10: `state_override_supported` returns `False` exactly when the
handle's chain id is a member of `NO_STATE_OVERRIDE`, and `True` otherwise. -/
theorem state_override_supported_iff (NO_STATE_OVERRIDE : List Nat) (f : Nat → Nat)
    (chainids : List (Nat × Nat)) (w3 : Nat) :
    (state_override_supported NO_STATE_OVERRIDE f chainids w3).1 = false
      ↔ (chain_id f chainids w3).1 ∈ NO_STATE_OVERRIDE := by
  by_cases hmem : (chain_id f chainids w3).1 ∈ NO_STATE_OVERRIDE
  · simp [state_override_supported, hmem]
  · simp [state_override_supported, hmem]

/-- C4: `get_async_w3` is idempotent on the `async_w3s` cache: the first
call stores the handle it resolved under the handle's identity, and a later
call with the same handle returns that identical cached object, leaves the
cache unchanged, and constructs nothing new. -/
theorem get_async_w3_cache_idempotent (hasWsV2 : Bool) (floor fresh fresh2 : Nat)
    (async_w3s : List (Nat × W3)) (w3 : W3) :
    List.lookup w3.id (get_async_w3 hasWsV2 floor fresh async_w3s w3).2.1
        = some (get_async_w3 hasWsV2 floor fresh async_w3s w3).1 ∧
    get_async_w3 hasWsV2 floor fresh2 (get_async_w3 hasWsV2 floor fresh async_w3s w3).2.1 w3
      = ((get_async_w3 hasWsV2 floor fresh async_w3s w3).1,
          (get_async_w3 hasWsV2 floor fresh async_w3s w3).2.1, false) :=
  ⟨get_async_w3_lookup_after hasWsV2 floor fresh async_w3s w3,
   get_async_w3_hit hasWsV2 floor fresh2 _ w3 _
     (get_async_w3_lookup_after hasWsV2 floor fresh async_w3s w3)⟩

/-- C6: on a cache miss, `get_async_w3` enforces the timeout floor
`AIOHTTP_TIMEOUT.total`: an already async-capable handle whose timeout is
below the floor gets its timeout raised to `AIOHTTP_TIMEOUT`, one at or
above the floor is returned unchanged, and a newly constructed adapter is
configured with the floor timeout. -/
theorem get_async_w3_timeout_floor (hasWsV2 : Bool) (floor fresh : Nat)
    (async_w3s : List (Nat × W3)) (w3 : W3)
    (hmiss : List.lookup w3.id async_w3s = none) :
    ((w3.eth_is_async && providerIsAsyncBase w3.providerKind) = true →
      (timeoutTotal w3.timeout < floor →
        (get_async_w3 hasWsV2 floor fresh async_w3s w3).1
          = { w3 with timeout := .client ⟨floor⟩ }) ∧
      (floor ≤ timeoutTotal w3.timeout →
        (get_async_w3 hasWsV2 floor fresh async_w3s w3).1 = w3)) ∧
    ((w3.eth_is_async && providerIsAsyncBase w3.providerKind) = false →
      (get_async_w3 hasWsV2 floor fresh async_w3s w3).1.timeout = .client ⟨floor⟩) := by
  constructor
  · intro hasync
    constructor
    · intro hlt
      unfold get_async_w3
      simp [hmiss, hasync, hlt]
    · intro hge
      have hnlt : ¬ timeoutTotal w3.timeout < floor := by omega
      unfold get_async_w3
      simp [hmiss, hasync, hnlt]
  · intro hsync
    unfold get_async_w3
    simp [hmiss, hsync]

/-- Witness for C6 at a concrete input: an async handle with timeout `10`
below the floor `300` comes back with its timeout raised to the floor. -/
theorem get_async_w3_timeout_floor_witness :
    (get_async_w3 true 300 9 []
        { id := 1, eth_is_async := true, providerKind := .asyncBase,
          timeout := .num 10, endpoint := "http://localhost:8545" }).1
      = { id := 1, eth_is_async := true, providerKind := .asyncBase,
          timeout := .client ⟨300⟩, endpoint := "http://localhost:8545" } :=
  ((get_async_w3_timeout_floor true 300 9 []
      { id := 1, eth_is_async := true, providerKind := .asyncBase,
        timeout := .num 10, endpoint := "http://localhost:8545" } rfl).1
    rfl).1 (by decide)

/-- C8: with `NUM_PROCESSES = 1` the callable runs directly, keyword
arguments included, and its result is returned; with a pool configured and
no keyword arguments the pool returns the result; but at the failing input
(a pool configured and one keyword argument) the call raises `TypeError`
from `run_in_executor` instead of returning the callable's result. -/
theorem run_in_subprocess_kwargs_type_error :
    run_in_subprocess 1 (fun (n : Nat) (kw : List (String × Nat)) => n + kw.length)
        41 [("key", 1)] = .ok (42, .current) ∧
    run_in_subprocess 2 (fun (n : Nat) (kw : List (String × Nat)) => n + kw.length)
        41 [] = .ok (41, .pool) ∧
    run_in_subprocess 2 (fun (n : Nat) (kw : List (String × Nat)) => n + kw.length)
        41 [("key", 1)] = .error PyError.typeError :=
  ⟨rfl, rfl, rfl⟩

/-- C9: `get_event_loop` returns the fetched loop when fetching succeeds;
when fetching raises a `RuntimeError` whose message starts with
`"There is no current event loop in thread"` it creates a new loop, installs
it as current and returns it; any other `RuntimeError` is re-raised
unchanged. -/
theorem get_event_loop_spec (l newLoop : Nat) (e : String) :
    (get_event_loop (.ok l) newLoop = .ok (l, false)) ∧
    (e.startsWith noLoopMsg = true →
      get_event_loop (.error e) newLoop = .ok (newLoop, true)) ∧
    (e.startsWith noLoopMsg = false →
      get_event_loop (.error e) newLoop = .error e) := by
  refine ⟨rfl, ?_, ?_⟩
  · intro h
    simp [get_event_loop, h]
  · intro h
    simp [get_event_loop, h]

/-- C5 counterexample: with the `lru_cache(maxsize=1)` cache, acquiring the
semaphore under loop `0`, then under loop `1`, then under loop `0` again
hands loop `0` two different semaphore instances, so there is not exactly
one instance per event loop. -/
theorem get_semaphore_not_unique_per_loop :
    (semaphore_run none 0 [0, 1, 0]).get? 0 = some (0, ⟨0, 0⟩) ∧
    (semaphore_run none 0 [0, 1, 0]).get? 2 = some (0, ⟨0, 2⟩) ∧
    ((⟨0, 0⟩ : Sem) ≠ ⟨0, 2⟩) := by
  decide

/-- C5 amended: every acquisition returns a semaphore that was created while
the acquisition's own loop was current (never one bound to a different
loop), and consecutive acquisitions under the same current loop return the
identical instance; the size-1 cache only guarantees this for the most
recently used loop, not one instance per loop over the whole run. -/
theorem get_semaphore_loop_affinity (fresh : Nat) (loops : List Nat) :
    (∀ p ∈ semaphore_run none fresh loops, p.2.sloop = p.1) ∧
    List.Chain' (fun a b : Nat × Sem => a.1 = b.1 → a.2 = b.2)
      (semaphore_run none fresh loops) :=
  semaphore_run_spec loops none fresh (fun _ _ h => Option.noConfusion h)

end Multicall
